import Mathlib

/-!
Verification of the mSIM server core (a line-oriented instant-messaging
server written in Go) against its natural-language specification.

The Go sources are shallowly embedded: Go strings are `List Char`
(Go's `for _, r := range s` iterates runes, which `Char` models exactly),
machine integers that never overflow in the modelled paths are `Nat`/`Int`,
`time.Time` instants are `Nat` (RFC3339 strings with second precision in
UTC compare lexicographically exactly as instants, and every write in the
repository uses that one format), and fallible operations return
`Except`/`Option`.  Each definition is translated from the function of the
same name in the repository; file and line references are given in the
doc comments.
-/

namespace MSim

namespace Protocol

/-- Escaping of one character, the switch of `Escape` (protocol/protocol.go
lines 148-169): the five significant characters become backslash pairs,
everything else is copied. -/
def escapeChar (c : Char) : List Char :=
  if c = '|' then ['\\', '|']
  else if c = ',' then ['\\', ',']
  else if c = '\\' then ['\\', '\\']
  else if c = '\n' then ['\\', 'n']
  else if c = '\r' then ['\\', 'r']
  else [c]

/-- `Escape` (protocol/protocol.go lines 148-169): escape every character of
the field. -/
def Escape : List Char → List Char
  | [] => []
  | c :: rest => escapeChar c ++ Escape rest

/-- Decoding of one escape code, the inner switch of `unescape`
(protocol/protocol.go lines 106-124): the five known codes are decoded, an
unknown escape is reproduced literally as a backslash followed by the
character. -/
def unescapeCode (d : Char) : List Char :=
  if d = '|' then ['|']
  else if d = ',' then [',']
  else if d = '\\' then ['\\']
  else if d = 'n' then ['\n']
  else if d = 'r' then ['\r']
  else ['\\', d]

/-- `unescape` (protocol/protocol.go lines 102-145), at rune level.  A
backslash escapes the following character when one exists (the Go code
checks `i < len(s)-1` on byte indices; since a backslash is one byte, the
check is exactly "not the last rune"); a trailing lone backslash is kept
literally. -/
def unescape : List Char → List Char
  | [] => []
  | c :: rest =>
    if c = '\\' then
      match rest with
      | [] => ['\\']
      | d :: rest2 => unescapeCode d ++ unescape rest2
    else c :: unescape rest

/-- Prepend a character to the first part of a split result (the running
`current` builder of `splitUnescaped`). -/
def consHead (c : Char) : List (List Char) → List (List Char)
  | [] => [[c]]
  | p :: ps => (c :: p) :: ps

/-- The loop of `splitUnescaped` (protocol/protocol.go lines 70-99),
carrying the Go `escape` flag.  A character seen in escape state is copied
verbatim; a backslash is copied and sets the flag; an unescaped delimiter
closes the current part; the final `current` is always appended, so the
result is never empty. -/
def splitUnescapedGo (delim : Char) : Bool → List Char → List (List Char)
  | _, [] => [[]]
  | true, c :: rest => consHead c (splitUnescapedGo delim false rest)
  | false, c :: rest =>
    if c = '\\' then consHead '\\' (splitUnescapedGo delim true rest)
    else if c = delim then [] :: splitUnescapedGo delim false rest
    else consHead c (splitUnescapedGo delim false rest)

/-- `splitUnescaped` (protocol/protocol.go lines 70-99). -/
def splitUnescaped (s : List Char) (delim : Char) : List (List Char) :=
  splitUnescapedGo delim false s

/-- `strings.TrimSuffix`: remove one trailing occurrence of the suffix. -/
def trimSuffix (s suffix : List Char) : List Char :=
  if suffix.isSuffixOf s then s.take (s.length - suffix.length) else s

/-- A decoded packet (protocol/protocol.go lines 12-17). -/
structure Packet where
  type : List Char
  destination : List Char
  content : List Char
  fields : List (List Char)
deriving DecidableEq, Repr

/-- `ParsePacket` (protocol/protocol.go lines 19-44): strip one trailing LF
then one trailing CR, split on unescaped pipes, and fill the packet from
the first one, two or three parts (parts past the third are dropped).
The `len(parts) < 1` guard of the Go code is the `[]` case. -/
def ParsePacket (line : List Char) : Option Packet :=
  match splitUnescaped (trimSuffix (trimSuffix line ['\n']) ['\r']) '|' with
  | [] => none
  | p0 :: rest =>
    match rest with
    | [] => some { type := unescape p0, destination := [], content := [], fields := [] }
    | [p1] =>
      some { type := unescape p0, destination := [], content := unescape p1,
             fields := splitUnescaped (unescape p1) '|' }
    | p1 :: p2 :: _ =>
      some { type := unescape p0, destination := unescape p1, content := unescape p2,
             fields := splitUnescaped (unescape p2) '|' }

/-- The field encoder of `sendPacket` (server/server.go lines 251-264) and
`FormatPacket` (protocol/protocol.go lines 46-59): `strings.Join` of the
per-field escapes with a pipe. -/
def joinFields : List (List Char) → List Char
  | [] => []
  | [f] => f
  | f :: rest => f ++ '|' :: joinFields rest

/-- Encoding a vector of fields into one line: escape each field and join
with unescaped pipes, as `sendPacket` does. -/
def encodeFields (fields : List (List Char)) : List Char :=
  joinFields (fields.map Escape)

/-- Decoding a line back into its fields: split on unescaped pipes and
unescape each part, as `ParsePacket` / `splitUnescaped` do. -/
def decodeFields (s : List Char) : List (List Char) :=
  (splitUnescaped s '|').map unescape

theorem unescape_cons_ne (c : Char) (rest : List Char) (h : ¬c = '\\') :
    unescape (c :: rest) = c :: unescape rest := by
  rw [unescape.eq_def]
  simp [h]

theorem unescape_escaped (d : Char) (rest : List Char) :
    unescape ('\\' :: d :: rest) = unescapeCode d ++ unescape rest := by
  rw [unescape.eq_def]
  simp

/-- Unescaping undoes escaping of a single character, in front of any
continuation. -/
theorem unescape_escapeChar (c : Char) (l : List Char) :
    unescape (escapeChar c ++ l) = c :: unescape l := by
  by_cases h1 : c = '|'
  · subst h1; simp [escapeChar, unescape_escaped, unescapeCode]
  by_cases h2 : c = ','
  · subst h2; simp [escapeChar, unescape_escaped, unescapeCode, h1]
  by_cases h3 : c = '\\'
  · subst h3; simp [escapeChar, unescape_escaped, unescapeCode]
  by_cases h4 : c = '\n'
  · subst h4; simp [escapeChar, unescape_escaped, unescapeCode, h1, h2]
  by_cases h5 : c = '\r'
  · subst h5; simp [escapeChar, unescape_escaped, unescapeCode, h1, h2]
  · simp [escapeChar, h1, h2, h3, h4, h5, unescape_cons_ne c l h3]

/-- Unescaping undoes escaping of a whole field. -/
theorem unescape_Escape (s : List Char) : unescape (Escape s) = s := by
  induction s with
  | nil => rfl
  | cons c rest ih => rw [Escape, unescape_escapeChar, ih]

/-- Prepend a prefix to the first part of a split result. -/
def prependHead (l : List Char) : List (List Char) → List (List Char)
  | [] => [l]
  | p :: ps => (l ++ p) :: ps

theorem consHead_prependHead (c : Char) (l : List Char)
    (parts : List (List Char)) :
    consHead c (prependHead l parts) = prependHead (c :: l) parts := by
  cases parts <;> simp [consHead, prependHead]

theorem splitUnescapedGo_ne_nil (delim : Char) (b : Bool) (s : List Char) :
    splitUnescapedGo delim b s ≠ [] := by
  induction s generalizing b with
  | nil => simp [splitUnescapedGo]
  | cons c rest ih =>
    cases b with
    | true =>
      simp only [splitUnescapedGo]
      cases h : splitUnescapedGo delim false rest <;> simp [consHead]
    | false =>
      simp only [splitUnescapedGo]
      split
      · cases h : splitUnescapedGo delim true rest <;> simp [consHead]
      · split
        · simp
        · cases h : splitUnescapedGo delim false rest <;> simp [consHead]

theorem prependHead_nil {parts : List (List Char)} (h : parts ≠ []) :
    prependHead [] parts = parts := by
  cases parts with
  | nil => exact absurd rfl h
  | cons p ps => simp [prependHead]

/-- Splitting on the pipe walks over one escaped field without cutting it:
the field is glued onto the first part of the split of the remainder. -/
theorem splitUnescapedGo_Escape (s t : List Char) :
    splitUnescapedGo '|' false (Escape s ++ t) =
      prependHead (Escape s) (splitUnescapedGo '|' false t) := by
  induction s with
  | nil => simp [Escape, prependHead_nil (splitUnescapedGo_ne_nil '|' false t)]
  | cons c rest ih =>
    rw [Escape, List.append_assoc]
    by_cases h1 : c = '|'
    · subst h1
      simp [escapeChar, splitUnescapedGo, ih, consHead_prependHead]
    by_cases h2 : c = ','
    · subst h2
      simp [escapeChar, splitUnescapedGo, h1, ih, consHead_prependHead]
    by_cases h3 : c = '\\'
    · subst h3
      simp [escapeChar, splitUnescapedGo, ih, consHead_prependHead]
    by_cases h4 : c = '\n'
    · subst h4
      simp [escapeChar, splitUnescapedGo, h1, h2, ih, consHead_prependHead]
    by_cases h5 : c = '\r'
    · subst h5
      simp [escapeChar, splitUnescapedGo, h1, h2, ih, consHead_prependHead]
    · simp [escapeChar, splitUnescapedGo, h1, h2, h3, h4, h5, ih,
        consHead_prependHead]

theorem splitUnescapedGo_pipe (t : List Char) :
    splitUnescapedGo '|' false ('|' :: t) = [] :: splitUnescapedGo '|' false t := by
  rw [splitUnescapedGo, if_neg (by decide), if_pos rfl]

/-- Decoding inverts encoding on any nonempty vector of fields. -/
theorem decodeFields_encodeFields (fields : List (List Char))
    (h : fields ≠ []) : decodeFields (encodeFields fields) = fields := by
  induction fields with
  | nil => exact absurd rfl h
  | cons f rest ih =>
    cases rest with
    | nil =>
      show decodeFields (joinFields [Escape f]) = [f]
      have h1 : joinFields [Escape f] = Escape f ++ [] := by simp [joinFields]
      simp only [decodeFields, splitUnescaped, h1, splitUnescapedGo_Escape]
      simp [splitUnescapedGo, prependHead, unescape_Escape]
    | cons g rest2 =>
      have hrec := ih (by simp)
      simp only [decodeFields, encodeFields, splitUnescaped, List.map_cons] at hrec ⊢
      show List.map unescape (splitUnescapedGo '|' false
        (Escape f ++ '|' :: joinFields (Escape g :: List.map Escape rest2))) =
        f :: g :: rest2
      rw [splitUnescapedGo_Escape, splitUnescapedGo_pipe]
      simp only [prependHead, List.append_nil, List.map_cons, unescape_Escape]
      exact congrArg (f :: ·) hrec

/-- C1.  The claim quantifies over every vector of field strings; the empty
vector refutes it: encoding the empty vector gives the empty line, and the
decoder always yields at least one (empty) field, so the round trip returns
a one-element vector, not the empty one. -/
theorem c1_empty_vector_counterexample :
    decodeFields (encodeFields []) ≠ [] ∧
      decodeFields (encodeFields []) = [[]] := by
  constructor <;> decide

/-- C1 (amended: nonempty vectors).  For every nonempty vector of field
strings, decoding the line built by escaping each field and joining with
unescaped pipes — the encoding used by `sendPacket` and `FormatPacket` —
returns exactly the original field strings. -/
theorem c1_codec_round_trip (fields : List (List Char)) (h : fields ≠ []) :
    decodeFields (encodeFields fields) = fields :=
  decodeFields_encodeFields fields h

/-- C1 witness: a concrete vector exercising every escape (pipe, comma,
backslash, LF, CR) round-trips. -/
theorem c1_codec_round_trip_witness :
    ([['a', '|', 'b'], [','], ['\\'], ['\n', '\r'], []] :
        List (List Char)) ≠ [] ∧
      decodeFields (encodeFields [['a', '|', 'b'], [','], ['\\'], ['\n', '\r'], []]) =
        [['a', '|', 'b'], [','], ['\\'], ['\n', '\r'], []] :=
  ⟨by decide, c1_codec_round_trip _ (by decide)⟩

/-- C9.  Packet decoding is total: `splitUnescaped` always yields at least
one part, so `ParsePacket` returns a packet (never the invalid-packet
error) on every input line, and the connection handler's decode-failure
branch (server/server.go lines 164-169) is unreachable. -/
theorem c9_parsePacket_total (line : List Char) :
    (ParsePacket line).isSome := by
  unfold ParsePacket
  cases h : splitUnescaped (trimSuffix (trimSuffix line ['\n']) ['\r']) '|' with
  | nil => exact absurd h (splitUnescapedGo_ne_nil '|' false _)
  | cons p0 rest =>
    cases rest with
    | nil => rfl
    | cons p1 rest2 => cases rest2 <;> rfl

end Protocol

namespace Db

/-- Instants: every timestamp in db.go is written and compared as an
RFC3339 string with second precision in UTC, one fixed format, on which
lexicographic (SQL string) order coincides with instant order; instants
are therefore embedded as naturals. -/
abbrev Instant := Nat

/-- A row of the `users` table (db/db.go lines 40-44 and the migrated
`last_online` / `last_offline` columns).  The bcrypt hash is abstracted:
the stored `password` is the secret that `AuthenticateUser` compares. -/
structure UserRow where
  login : String
  password : String
  lastOnline : Instant
  lastOffline : Instant
deriving DecidableEq, Repr

/-- A row of the `contacts` table (db/db.go lines 45-51). -/
structure ContactRow where
  owner : String
  contact : String
  nick : String
deriving DecidableEq, Repr

/-- A row of the `messages` table (db/db.go lines 52-59). -/
structure MessageRow where
  sender : String
  recipient : String
  text : String
  timestamp : Instant
  status : String
deriving DecidableEq, Repr

/-- The repository state. -/
structure DB where
  users : List UserRow
  contacts : List ContactRow
  messages : List MessageRow
deriving DecidableEq, Repr

/-- Error values relevant to the contact handlers.  `sqlErrNoRows` is the
`database/sql` sentinel `sql.ErrNoRows`, which `UpdateContactNick` and
`DeleteContact` return (db/db.go lines 236 and 254); `dbErrNoRows` is the
distinct package-level `db.ErrNoRows` declared at db/db.go line 13.  They
are two different Go error values, and the contact handlers compare with
`==`, i.e. value identity. -/
inductive DbErr
  | sqlErrNoRows
  | dbErrNoRows
deriving DecidableEq, Repr

/-- `UserExists` (db/db.go lines 190-197): `COUNT(*) > 0` over logins. -/
def UserExists (db : DB) (login : String) : Bool :=
  db.users.any (fun u => u.login == login)

/-- `AuthenticateUser` (db/db.go lines 176-188): no row means false, else
the bcrypt comparison of the stored secret, abstracted as equality. -/
def AuthenticateUser (db : DB) (login password : String) : Bool :=
  match db.users.find? (fun u => u.login == login) with
  | none => false
  | some u => u.password == password

/-- `UpdateLastOnline` (db/db.go lines 139-145). -/
def UpdateLastOnline (db : DB) (login : String) (t : Instant) : DB :=
  { db with users := db.users.map (fun u =>
      if u.login == login then { u with lastOnline := t } else u) }

/-- `UpdateLastOffline` (db/db.go lines 148-154). -/
def UpdateLastOffline (db : DB) (login : String) (t : Instant) : DB :=
  { db with users := db.users.map (fun u =>
      if u.login == login then { u with lastOffline := t } else u) }

/-- `SaveMessage` (db/db.go lines 270-276): insert one row with status
`sent`. -/
def SaveMessage (db : DB) (sender recipient text : String)
    (timestamp : Instant) : DB :=
  { db with messages := db.messages ++
      [{ sender := sender, recipient := recipient, text := text,
         timestamp := timestamp, status := "sent" }] }

/-- `MarkMessageAcknowledged` (db/db.go lines 313-319): set status `ackn`
on every row matching the (sender, recipient, timestamp) triple. -/
def MarkMessageAcknowledged (db : DB) (sender recipient : String)
    (timestamp : Instant) : DB :=
  { db with messages := db.messages.map (fun m =>
      if m.sender == sender && m.recipient == recipient &&
          m.timestamp == timestamp
      then { m with status := "ackn" } else m) }

/-- The WHERE clause of `UpdateContactNick` and `DeleteContact`. -/
def matchesContact (owner contact : String) (c : ContactRow) : Bool :=
  c.owner == owner && c.contact == contact

/-- `UpdateContactNick` (db/db.go lines 224-240): update the matching
rows; when zero rows are affected return `sql.ErrNoRows`. -/
def UpdateContactNick (db : DB) (owner contact nick : String) :
    Except DbErr DB :=
  if db.contacts.countP (matchesContact owner contact) = 0 then
    .error .sqlErrNoRows
  else
    .ok { db with contacts := db.contacts.map (fun c =>
      if matchesContact owner contact c then { c with nick := nick } else c) }

/-- `DeleteContact` (db/db.go lines 242-258): delete the matching rows;
when zero rows are affected return `sql.ErrNoRows`. -/
def DeleteContact (db : DB) (owner contact : String) : Except DbErr DB :=
  if db.contacts.countP (matchesContact owner contact) = 0 then
    .error .sqlErrNoRows
  else
    .ok { db with contacts :=
      db.contacts.filter (fun c => !matchesContact owner contact c) }

/-- One step of the COUNT aggregation: increment the entry of `key`, or
append a fresh entry of one. -/
def bump (key : String) : List (String × Nat) → List (String × Nat)
  | [] => [(key, 1)]
  | (k, n) :: rest =>
    if k == key then (k, n + 1) :: rest else (k, n) :: bump key rest

/-- Lookup in an aggregation result, zero when absent (a sender with no
matching message produces no GROUP BY row). -/
def lookupD (l : List (String × Nat)) (k : String) : Nat :=
  match l.find? (fun e => e.1 == k) with
  | some e => e.2
  | none => 0

/-- `GetOfflineMessageCounts` (db/db.go lines 330-373): read the user's
stored `last_offline` and `last_online`, then count the messages with
`recipient = ? AND timestamp > last_offline AND timestamp <= last_online`
grouped by sender (the SQL compares the uniform RFC3339 strings, which is
instant comparison).  The GROUP BY / COUNT(*) aggregation is embedded as a
fold over the filtered rows.  A missing user row surfaces as
`sql.ErrNoRows` from the Scan. -/
def GetOfflineMessageCounts (db : DB) (recipient : String) :
    Except DbErr (List (String × Nat)) :=
  match db.users.find? (fun u => u.login == recipient) with
  | none => .error .sqlErrNoRows
  | some u =>
    .ok ((db.messages.filter (fun m =>
        m.recipient == recipient && u.lastOffline < m.timestamp &&
          m.timestamp ≤ u.lastOnline)).foldl
      (fun acc m => bump m.sender acc) [])

end Db

namespace Server

/-- The handler-level view of a decoded packet: Go strings. -/
structure Pkt where
  destination : String
  content : String
  fields : List String
deriving DecidableEq, Repr

/-- The in-memory session (server/server.go lines 32-37); the socket and
the liveness timestamp play no role in the handler claims. -/
structure Session where
  login : String
deriving DecidableEq, Repr

/-- A response written back on the requesting connection: `packet` is
`sendPacket` (each field escaped, joined with pipes), `raw` is
`sendPacketRaw` (items later joined with commas, inner pipes unescaped). -/
inductive Response
  | packet (fields : List String)
  | raw (pktType : String) (items : List String)
deriving DecidableEq, Repr

/-- `sendOK` (server/server.go lines 277-283). -/
def sendOK (operation : String) : Response :=
  if operation = "" then .packet ["ok"] else .packet ["ok", operation]

/-- `sendError` (server/server.go lines 285-292). -/
def sendError (operation description : String) : Response :=
  if operation = "" then .packet ["fail", description]
  else .packet ["fail", operation, description]

/-- Side effects other than the response on the requesting connection. -/
inductive Action
  | saveMessage (sender recipient text : String) (ts : Db.Instant)
  | deliverMsg (recipient sender text : String) (ts : Db.Instant)
  | addSession (login : String)
  | updateLastOnline (login : String) (ts : Db.Instant)
  | fanoutOnline (login : String) (ts : Db.Instant)
deriving DecidableEq, Repr

/-- Credential extraction of `handleAuth` (part_004 lines 20-32): login
and password come from DESTINATION and CONTENT when a destination is
present, otherwise from the first two content fields; fewer than two
fields is the invalid-credentials early return. -/
def credOf (pkt : Pkt) : Option (String × String) :=
  if pkt.destination = "" then
    match pkt.fields with
    | f1 :: f2 :: _ => some (f1, f2)
    | _ => none
  else some (pkt.destination, pkt.content)

/-- The outcome of `handleAuth`: repository, session registry (the logins
currently mapped), the connection's session, side effects, response. -/
structure AuthOutcome where
  db : Db.DB
  registry : List String
  session : Session
  actions : List Action
  response : Response
deriving DecidableEq, Repr

/-- An outcome that produces nothing but a response: every early-return
branch of `handleAuth` has this shape. -/
def noopOutcome (db : Db.DB) (reg : List String) (sess : Session)
    (r : Response) : AuthOutcome :=
  { db := db, registry := reg, session := sess, actions := [], response := r }

/-- The body of `handleAuth` (part_004 lines 17-68) after the credential
extraction at its top.  Note the order of the checks in the source: the
shape check (`none` here) and the emptiness check run before the
already-authenticated check; only then, for a fresh session, are the
credentials verified, the session bound, `last_online` updated and the
presence fan-out emitted. -/
def handleAuthCred (db : Db.DB) (reg : List String) (sess : Session)
    (now : Db.Instant) : Option (String × String) → AuthOutcome
  | none => noopOutcome db reg sess (sendError "auth" "Invalid credentials")
  | some (login, password) =>
    if login = "" ∨ password = "" then
      noopOutcome db reg sess (sendError "auth" "Invalid credentials")
    else if ¬sess.login = "" then
      noopOutcome db reg sess (sendOK "auth")
    else if !Db.AuthenticateUser db login password then
      noopOutcome db reg sess (sendError "auth" "Invalid credentials")
    else
      { db := Db.UpdateLastOnline db login now, registry := reg ++ [login],
        session := { login := login },
        actions := [Action.addSession login,
          Action.updateLastOnline login now, Action.fanoutOnline login now],
        response := sendOK "auth" }

/-- `handleAuth` (part_004 lines 17-68): extract the credentials, then run
the checks in source order. -/
def handleAuth (db : Db.DB) (reg : List String) (sess : Session)
    (pkt : Pkt) (now : Db.Instant) : AuthOutcome :=
  handleAuthCred db reg sess now (credOf pkt)

/-- `handleMessage` (part_004 lines 114-167).  `online` is the set of
logins with a session in the registry (`getSessionConn` succeeds exactly
for them); the delivered wire line carries the escaped sender and text and
the plain timestamp. -/
def handleMessage (db : Db.DB) (online : List String) (sess : Session)
    (pkt : Pkt) (now : Db.Instant) : Db.DB × List Action × Response :=
  if sess.login = "" then (db, [], sendError "msg" "Not authenticated")
  else if pkt.destination = "" then (db, [], sendError "msg" "Recipient required")
  else if pkt.content = "" then (db, [], sendError "msg" "Message text required")
  else if !Db.UserExists db pkt.destination then
    (db, [], sendError "msg" "Recipient not found")
  else
    (Db.SaveMessage db sess.login pkt.destination pkt.content now,
     Action.saveMessage sess.login pkt.destination pkt.content now ::
       (if pkt.destination ∈ online then
          [Action.deliverMsg pkt.destination sess.login pkt.content now]
        else []),
     sendOK "msg")

/-- Contact and nick extraction of `handleRenameContact` (part_004 lines
517-532). -/
def contactNickOf (pkt : Pkt) : Option (String × String) :=
  if pkt.destination = "" then
    match pkt.fields with
    | f1 :: f2 :: _ => some (f1, f2)
    | _ => none
  else
    some (pkt.destination,
      match pkt.fields with
      | f :: _ => f
      | [] => pkt.content)

/-- `handleRenameContact` (part_004 lines 511-551).  The error branch
compares the repository error with `db.ErrNoRows` — but the repository
returns `sql.ErrNoRows`. -/
def handleRenameContact (db : Db.DB) (sess : Session) (pkt : Pkt) :
    Db.DB × Response :=
  if sess.login = "" then (db, sendError "ren" "Not authenticated")
  else
    match contactNickOf pkt with
    | none => (db, sendError "ren" "Invalid data")
    | some (contact, nick) =>
      if contact = "" ∨ nick = "" then (db, sendError "ren" "Invalid data")
      else
        match Db.UpdateContactNick db sess.login contact nick with
        | .error e =>
          if e = Db.DbErr.dbErrNoRows then (db, sendError "ren" "Contact not found")
          else (db, sendError "ren" "Internal error")
        | .ok db2 => (db2, sendOK "ren")

/-- Contact extraction of `handleDeleteContact` (part_004 lines 559-568). -/
def contactOf (pkt : Pkt) : String :=
  if pkt.destination = "" then
    match pkt.fields with
    | f :: _ => f
    | [] => pkt.content
  else pkt.destination

/-- `handleDeleteContact` (part_004 lines 553-587); same error comparison
as the rename handler. -/
def handleDeleteContact (db : Db.DB) (sess : Session) (pkt : Pkt) :
    Db.DB × Response :=
  if sess.login = "" then (db, sendError "del" "Not authenticated")
  else if contactOf pkt = "" then (db, sendError "del" "Invalid data")
  else
    match Db.DeleteContact db sess.login (contactOf pkt) with
    | .error e =>
      if e = Db.DbErr.dbErrNoRows then (db, sendError "del" "Contact not found")
      else (db, sendError "del" "Internal error")
    | .ok db2 => (db2, sendOK "del")

/-- `protocol.Escape` applied to a Go string, at the handler level. -/
def escapeS (s : String) : String := String.mk (Protocol.Escape s.data)

/-- One `offmsg` response item (part_004 lines 709-713):
escaped sender, unescaped pipe, decimal count. -/
def offmsgItem (e : String × Nat) : String :=
  escapeS e.1 ++ "|" ++ toString e.2

/-- `handleOfflineMessages` (part_004 lines 695-718). -/
def handleOfflineMessages (db : Db.DB) (sess : Session) : Response :=
  if sess.login = "" then sendError "offmsg" "Not authenticated"
  else
    match Db.GetOfflineMessageCounts db sess.login with
    | .error _ => sendError "offmsg" "Internal error"
    | .ok counts => .raw "offmsg" (counts.map offmsgItem)

theorem lookupD_cons (a : String × Nat) (rest : List (String × Nat))
    (k : String) :
    Db.lookupD (a :: rest) k = if a.1 = k then a.2 else Db.lookupD rest k := by
  by_cases h : a.1 = k
  · rw [Db.lookupD, List.find?_cons_of_pos _ (by simp [h]), if_pos h]
  · rw [Db.lookupD, List.find?_cons_of_neg _ (by simp [h]), if_neg h]
    rfl

theorem lookupD_bump (key k : String) (acc : List (String × Nat)) :
    Db.lookupD (Db.bump key acc) k =
      Db.lookupD acc k + (if k = key then 1 else 0) := by
  induction acc with
  | nil =>
    rw [show Db.bump key [] = [(key, 1)] from rfl, lookupD_cons]
    by_cases h : k = key
    · subst h; simp [Db.lookupD]
    · have h2 : ¬key = k := fun hh => h hh.symm
      simp [Db.lookupD, h, h2]
  | cons a rest ih =>
    obtain ⟨k0, n⟩ := a
    by_cases hk : k0 = key
    · subst hk
      rw [show Db.bump k0 ((k0, n) :: rest) = (k0, n + 1) :: rest from by
        simp [Db.bump]]
      rw [lookupD_cons, lookupD_cons]
      by_cases h : k0 = k
      · subst h; simp
      · have h2 : ¬k = k0 := fun hh => h hh.symm
        simp [h, h2]
    · rw [show Db.bump key ((k0, n) :: rest) = (k0, n) :: Db.bump key rest from by
        simp [Db.bump, hk]]
      rw [lookupD_cons, lookupD_cons]
      by_cases h : k0 = k
      · have hkk : ¬k = key := fun hh => hk (h.trans hh)
        simp [h, hkk]
      · simp [h, ih]

theorem lookupD_foldl_bump {α : Type} (f : α → String) (l : List α)
    (acc : List (String × Nat)) (k : String) :
    Db.lookupD (l.foldl (fun a m => Db.bump (f m) a) acc) k =
      Db.lookupD acc k + l.countP (fun m => f m == k) := by
  induction l generalizing acc with
  | nil => simp
  | cons m rest ih =>
    rw [List.foldl_cons, ih, lookupD_bump, List.countP_cons]
    by_cases h : f m = k
    · rw [if_pos h.symm, if_pos (by simp [h])]
      omega
    · rw [if_neg (fun hh => h hh.symm), if_neg (by simp [h])]
      omega

/-- C5.  For every authenticated session whose user row exists, `offmsg`
answers with the per-sender aggregation of `GetOfflineMessageCounts`, and
for every sender that aggregation counts exactly the messages addressed to
the requesting user whose timestamp t satisfies
last_offline < t <= last_online, both bounds being the user's stored
instants at the time of the request. -/
theorem c5_offmsg_window_counts (db : Db.DB) (sess : Session)
    (u : Db.UserRow) (hauth : ¬sess.login = "")
    (hu : db.users.find? (fun v => v.login == sess.login) = some u) :
    ∃ counts, Db.GetOfflineMessageCounts db sess.login = .ok counts ∧
      handleOfflineMessages db sess = .raw "offmsg" (counts.map offmsgItem) ∧
      ∀ sender, Db.lookupD counts sender =
        db.messages.countP (fun m =>
          (m.sender == sender) && (m.recipient == sess.login &&
            u.lastOffline < m.timestamp && m.timestamp ≤ u.lastOnline)) := by
  have hcounts : Db.GetOfflineMessageCounts db sess.login =
      .ok ((db.messages.filter (fun m =>
        m.recipient == sess.login && u.lastOffline < m.timestamp &&
          m.timestamp ≤ u.lastOnline)).foldl
        (fun acc m => Db.bump m.sender acc) []) := by
    unfold Db.GetOfflineMessageCounts
    rw [hu]
  refine ⟨_, hcounts, ?_, ?_⟩
  · rw [handleOfflineMessages, if_neg hauth, hcounts]
  · intro sender
    rw [lookupD_foldl_bump (fun m : Db.MessageRow => m.sender),
      List.countP_filter]
    simp [Db.lookupD]

/-- The repository used by the C5 witness: bob was last offline at 1 and
last online at 5; alice sent messages at 0, 2, 3 and 6, of which exactly
those at 2 and 3 fall in the window. -/
def c5Db : Db.DB :=
  { users := [{ login := "alice", password := "pa", lastOnline := 9,
                lastOffline := 8 },
              { login := "bob", password := "pb", lastOnline := 5,
                lastOffline := 1 }],
    contacts := [],
    messages := [{ sender := "alice", recipient := "bob", text := "m0",
                   timestamp := 0, status := "sent" },
                 { sender := "alice", recipient := "bob", text := "m2",
                   timestamp := 2, status := "sent" },
                 { sender := "alice", recipient := "bob", text := "m3",
                   timestamp := 3, status := "ackn" },
                 { sender := "alice", recipient := "bob", text := "m6",
                   timestamp := 6, status := "sent" }] }

/-- The user row of bob in `c5Db`. -/
def c5User : Db.UserRow :=
  { login := "bob", password := "pb", lastOnline := 5, lastOffline := 1 }

/-- C5 witness: the theorem applied to `c5Db` and bob's session. -/
theorem c5_offmsg_window_counts_witness :
    ∃ counts, Db.GetOfflineMessageCounts c5Db "bob" = .ok counts ∧
      handleOfflineMessages c5Db { login := "bob" } =
        .raw "offmsg" (counts.map offmsgItem) ∧
      ∀ sender, Db.lookupD counts sender =
        c5Db.messages.countP (fun m =>
          (m.sender == sender) && (m.recipient == "bob" &&
            c5User.lastOffline < m.timestamp &&
            m.timestamp ≤ c5User.lastOnline)) :=
  c5_offmsg_window_counts c5Db { login := "bob" } c5User (by decide)
    (by decide)

/-- A repository with users alice and bob and no contact rows. -/
def c2NoRow : Db.DB :=
  { users := [{ login := "alice", password := "pa", lastOnline := 0,
                lastOffline := 0 },
              { login := "bob", password := "pb", lastOnline := 0,
                lastOffline := 0 }],
    contacts := [], messages := [] }

/-- The same repository with the (alice, bob) contact row present. -/
def c2Row : Db.DB :=
  { c2NoRow with
    contacts := [{ owner := "alice", contact := "bob", nick := "Old" }] }

/-- C2.  Evaluation at the failing inputs: with no (alice, bob) contact
row, `ren` and `del` answer `fail|..|Internal error` — not
`Contact not found` as the claim states — because the repository returns
the `sql.ErrNoRows` sentinel while the handlers compare against the
distinct `db.ErrNoRows` value; with the row present, `ok|ren` and
`ok|del` are answered as claimed. -/
theorem c2_ren_del_missing_row_internal_error :
    handleRenameContact c2NoRow { login := "alice" }
        { destination := "bob", content := "New", fields := [] } =
      (c2NoRow, sendError "ren" "Internal error") ∧
    handleDeleteContact c2NoRow { login := "alice" }
        { destination := "bob", content := "", fields := [] } =
      (c2NoRow, sendError "del" "Internal error") ∧
    (handleRenameContact c2Row { login := "alice" }
        { destination := "bob", content := "New", fields := [] }).2 =
      sendOK "ren" ∧
    (handleDeleteContact c2Row { login := "alice" }
        { destination := "bob", content := "", fields := [] }).2 =
      sendOK "del" := by
  decide

/-- C4.  `msg` is persist-then-forward: for an authenticated request with
a named recipient and non-empty text, an unregistered recipient is
answered `fail|msg|Recipient not found` with the repository unchanged,
while a registered one gets exactly one `sent` row appended with the
server timestamp, the save is the first emitted effect, and the delivery
to the recipient's connection (present exactly when the recipient is
online) comes after it; the originator receives `ok|msg`. -/
theorem c4_msg_persist_then_forward (db : Db.DB) (online : List String)
    (sess : Session) (pkt : Pkt) (now : Db.Instant)
    (hauth : ¬sess.login = "") (hrcpt : ¬pkt.destination = "")
    (htext : ¬pkt.content = "") :
    (Db.UserExists db pkt.destination = false →
      handleMessage db online sess pkt now =
        (db, [], sendError "msg" "Recipient not found")) ∧
    (Db.UserExists db pkt.destination = true →
      ∃ acts,
        handleMessage db online sess pkt now =
          (Db.SaveMessage db sess.login pkt.destination pkt.content now,
            acts, sendOK "msg") ∧
        (Db.SaveMessage db sess.login pkt.destination pkt.content now).messages =
          db.messages ++
            [{ sender := sess.login, recipient := pkt.destination,
               text := pkt.content, timestamp := now, status := "sent" }] ∧
        acts.head? =
          some (Action.saveMessage sess.login pkt.destination pkt.content now) ∧
        (pkt.destination ∈ online →
          acts = [Action.saveMessage sess.login pkt.destination pkt.content now,
            Action.deliverMsg pkt.destination sess.login pkt.content now]) ∧
        (¬pkt.destination ∈ online →
          acts = [Action.saveMessage sess.login pkt.destination pkt.content now])) := by
  constructor
  · intro hne
    rw [handleMessage, if_neg hauth, if_neg hrcpt, if_neg htext,
      if_pos (by simp [hne])]
  · intro hex
    refine ⟨Action.saveMessage sess.login pkt.destination pkt.content now ::
      (if pkt.destination ∈ online then
        [Action.deliverMsg pkt.destination sess.login pkt.content now]
      else []), ?_, rfl, ?_, ?_, ?_⟩
    · rw [handleMessage, if_neg hauth, if_neg hrcpt, if_neg htext,
        if_neg (by simp [hex])]
    · by_cases h : pkt.destination ∈ online <;> simp [h]
    · intro h; rw [if_pos h]
    · intro h; rw [if_neg h]

/-- C4 witness: the theorem applied to a concrete repository, once with an
unregistered and once with a registered online recipient. -/
theorem c4_msg_persist_then_forward_witness :
    (Db.UserExists c2NoRow "carol" = false →
      handleMessage c2NoRow ["bob"] { login := "alice" }
          { destination := "carol", content := "hi", fields := [] } 7 =
        (c2NoRow, [], sendError "msg" "Recipient not found")) ∧
    (∃ acts,
      handleMessage c2NoRow ["bob"] { login := "alice" }
          { destination := "bob", content := "hi", fields := [] } 7 =
        (Db.SaveMessage c2NoRow "alice" "bob" "hi" 7, acts, sendOK "msg") ∧
      (Db.SaveMessage c2NoRow "alice" "bob" "hi" 7).messages =
        c2NoRow.messages ++
          [{ sender := "alice", recipient := "bob", text := "hi",
             timestamp := 7, status := "sent" }] ∧
      acts.head? = some (Action.saveMessage "alice" "bob" "hi" 7) ∧
      ("bob" ∈ ["bob"] →
        acts = [Action.saveMessage "alice" "bob" "hi" 7,
          Action.deliverMsg "bob" "alice" "hi" 7]) ∧
      (¬"bob" ∈ ["bob"] →
        acts = [Action.saveMessage "alice" "bob" "hi" 7])) :=
  ⟨(c4_msg_persist_then_forward c2NoRow ["bob"] { login := "alice" }
      { destination := "carol", content := "hi", fields := [] } 7
      (by decide) (by decide) (by decide)).1,
   (c4_msg_persist_then_forward c2NoRow ["bob"] { login := "alice" }
      { destination := "bob", content := "hi", fields := [] } 7
      (by decide) (by decide) (by decide)).2 (by decide)⟩

/-- C6.  `ack` is idempotent and never regresses: marking the same
(sender, recipient, timestamp) triple twice equals marking it once, and a
row whose status is already `ackn` still has status `ackn` after any
application. -/
theorem c6_ack_idempotent_never_regresses (db : Db.DB)
    (sender recipient : String) (ts : Db.Instant) :
    Db.MarkMessageAcknowledged
        (Db.MarkMessageAcknowledged db sender recipient ts)
        sender recipient ts =
      Db.MarkMessageAcknowledged db sender recipient ts ∧
    ∀ (i : Nat) (row : Db.MessageRow), db.messages[i]? = some row →
      row.status = "ackn" →
      ∃ row2 : Db.MessageRow,
        (Db.MarkMessageAcknowledged db sender recipient ts).messages[i]? =
          some row2 ∧ row2.status = "ackn" := by
  constructor
  · simp only [Db.MarkMessageAcknowledged, List.map_map]
    congr 1
    apply List.map_congr_left
    intro m _
    by_cases h : (m.sender == sender && m.recipient == recipient &&
        m.timestamp == ts) = true
    · simp only [Function.comp_apply]
      rw [if_pos h, if_pos h]
    · simp only [Function.comp_apply]
      rw [if_neg h, if_neg h]
  · intro i row hrow hst
    refine ⟨(fun m : Db.MessageRow =>
      if m.sender == sender && m.recipient == recipient &&
        m.timestamp == ts then { m with status := "ackn" } else m) row,
      ?_, ?_⟩
    · simp only [Db.MarkMessageAcknowledged]
      rw [List.getElem?_map, hrow]
      rfl
    · by_cases h : (row.sender == sender && row.recipient == recipient &&
          row.timestamp == ts) = true
      · simp only [if_pos h]
      · simp only [if_neg h]
        exact hst

/-- C6 witness: the theorem applied to `c5Db` (whose third message row is
already `ackn`) and the triple of its second row. -/
theorem c6_ack_idempotent_never_regresses_witness :
    Db.MarkMessageAcknowledged
        (Db.MarkMessageAcknowledged c5Db "alice" "bob" 2) "alice" "bob" 2 =
      Db.MarkMessageAcknowledged c5Db "alice" "bob" 2 ∧
    (∃ row2 : Db.MessageRow,
      (Db.MarkMessageAcknowledged c5Db "alice" "bob" 2).messages[2]? =
        some row2 ∧ row2.status = "ackn") :=
  have h := c6_ack_idempotent_never_regresses c5Db "alice" "bob" 2
  ⟨h.1, h.2 2 { sender := "alice", recipient := "bob", text := "m3", timestamp := 3, status := "ackn" } (by decide) (by decide)⟩

/-- The empty repository. -/
def emptyDB : Db.DB := { users := [], contacts := [], messages := [] }

/-- C10 counterexample: on an already-authenticated session, an `auth`
request with an empty password — invalid credentials — is answered
`fail|auth|Invalid credentials`, not `ok|auth`, because the emptiness
check precedes the already-authenticated check in the source. -/
theorem c10_reauth_empty_password_counterexample :
    (handleAuth emptyDB [] { login := "alice" }
        { destination := "bob", content := "", fields := [] } 0).response =
      sendError "auth" "Invalid credentials" ∧
    ¬(handleAuth emptyDB [] { login := "alice" }
        { destination := "bob", content := "", fields := [] } 0).response =
      sendOK "auth" := by
  decide

/-- C10 (amended).  On an already-authenticated session any further
`auth` request leaves the repository, the session registry, the session
login and the side effects (hence the stored last_online and the presence
fan-out) unchanged; the response is `ok|auth` whenever the request carries
a non-empty login and password — valid or not — and
`fail|auth|Invalid credentials` when the credential fields are missing or
empty. -/
theorem c10_reauth_is_noop (db : Db.DB) (reg : List String)
    (sess : Session) (pkt : Pkt) (now : Db.Instant)
    (hauth : ¬sess.login = "") :
    (handleAuth db reg sess pkt now).db = db ∧
    (handleAuth db reg sess pkt now).registry = reg ∧
    (handleAuth db reg sess pkt now).session = sess ∧
    (handleAuth db reg sess pkt now).actions = [] ∧
    (∀ lp, credOf pkt = some lp → ¬lp.1 = "" → ¬lp.2 = "" →
      (handleAuth db reg sess pkt now).response = sendOK "auth") ∧
    ((credOf pkt = none ∨
        ∃ lp, credOf pkt = some lp ∧ (lp.1 = "" ∨ lp.2 = "")) →
      (handleAuth db reg sess pkt now).response =
        sendError "auth" "Invalid credentials") := by
  have hnoop : ∀ o : Option (String × String),
      ∃ r, handleAuthCred db reg sess now o = noopOutcome db reg sess r := by
    intro o
    match o with
    | none => exact ⟨_, rfl⟩
    | some (login, password) =>
      by_cases he : login = "" ∨ password = ""
      · exact ⟨_, by rw [handleAuthCred, if_pos he]⟩
      · exact ⟨_, by rw [handleAuthCred, if_neg he, if_pos hauth]⟩
  obtain ⟨r, hr⟩ := hnoop (credOf pkt)
  have hr2 : handleAuth db reg sess pkt now = noopOutcome db reg sess r := by
    rw [handleAuth, hr]
  have hfields : (noopOutcome db reg sess r).db = db ∧
      (noopOutcome db reg sess r).registry = reg ∧
      (noopOutcome db reg sess r).session = sess ∧
      (noopOutcome db reg sess r).actions = [] := ⟨rfl, rfl, rfl, rfl⟩
  refine ⟨by rw [hr2]; exact hfields.1, by rw [hr2]; exact hfields.2.1,
    by rw [hr2]; exact hfields.2.2.1, by rw [hr2]; exact hfields.2.2.2, ?_, ?_⟩
  · intro lp hc h1 h2
    obtain ⟨login, password⟩ := lp
    rw [handleAuth, hc, handleAuthCred,
      if_neg (by simp only at h1 h2; simp [h1, h2]), if_pos hauth]
    rfl
  · intro hc
    cases hc with
    | inl h =>
      rw [handleAuth, h, handleAuthCred]
      rfl
    | inr h =>
      obtain ⟨lp, hsome, hempty⟩ := h
      obtain ⟨login, password⟩ := lp
      rw [handleAuth, hsome, handleAuthCred,
        if_pos (by simpa using hempty)]
      rfl

/-- C10 witness: the amended theorem applied to an authenticated session
of alice, once with well-formed foreign credentials (ok) and once with an
empty password (fail), with no state change in either case. -/
theorem c10_reauth_is_noop_witness :
    (handleAuth emptyDB ["alice"] { login := "alice" }
        { destination := "bob", content := "pw", fields := [] } 0).registry =
      ["alice"] ∧
    (handleAuth emptyDB ["alice"] { login := "alice" }
        { destination := "bob", content := "pw", fields := [] } 0).actions =
      [] ∧
    (handleAuth emptyDB ["alice"] { login := "alice" }
        { destination := "bob", content := "pw", fields := [] } 0).response =
      sendOK "auth" :=
  have h := c10_reauth_is_noop emptyDB ["alice"] { login := "alice" }
    { destination := "bob", content := "pw", fields := [] } 0 (by decide)
  ⟨h.2.1, h.2.2.2.1, h.2.2.2.2.1 ("bob", "pw") (by decide) (by decide)
    (by decide)⟩

end Server

namespace FileTransfer

/-- A file-transfer session (server/filetransfer.go lines 14-29); the two
data sockets are connection handles and not modelled. -/
structure FileSession where
  id : String
  sender : String
  recipient : String
  filename : String
  size : Int
  hash : String
  uploadPort : Nat
  downloadPort : Nat
  status : String
  createdAt : Db.Instant
  expiresAt : Db.Instant
deriving DecidableEq, Repr

/-- Decidable equality of results, for evaluating broker operations on
concrete states. -/
instance {e a : Type} [DecidableEq e] [DecidableEq a] :
    DecidableEq (Except e a) := fun x y =>
  match x, y with
  | .error e1, .error e2 =>
    if h : e1 = e2 then .isTrue (by rw [h]) else .isFalse (by simp [h])
  | .ok a1, .ok a2 =>
    if h : a1 = a2 then .isTrue (by rw [h]) else .isFalse (by simp [h])
  | .error _, .ok _ => .isFalse (by simp)
  | .ok _, .error _ => .isFalse (by simp)

/-- The broker errors (server/filetransfer.go lines 367-371). -/
inductive FtErr
  | sessionNotFound
  | sessionNotPending
  | noAvailablePorts
deriving DecidableEq, Repr

/-- The manager state (server/filetransfer.go lines 32-39): the session
map (keyed by id), the reserved port range and the used-port set. -/
structure FileTransferManager where
  sessions : List FileSession
  portRangeStart : Nat
  portRangeEnd : Nat
  usedPorts : List Nat
deriving DecidableEq, Repr

/-- `NewFileTransferManager` (server/filetransfer.go lines 42-49). -/
def NewFileTransferManager (portStart portEnd : Nat) : FileTransferManager :=
  { sessions := [], portRangeStart := portStart, portRangeEnd := portEnd,
    usedPorts := [] }

/-- `allocatePort` (server/filetransfer.go lines 207-219): an ascending
linear scan of the reserved range for a port not in the used set; the
first free port is marked used, exhaustion is the no-available-ports
error. -/
def allocatePort (m : FileTransferManager) :
    Except FtErr (Nat × FileTransferManager) :=
  match (List.range' m.portRangeStart
      (m.portRangeEnd + 1 - m.portRangeStart)).find?
      (fun p => decide (¬p ∈ m.usedPorts)) with
  | some p => .ok (p, { m with usedPorts := p :: m.usedPorts })
  | none => .error .noAvailablePorts

/-- `releasePort` (server/filetransfer.go lines 222-226). -/
def releasePort (m : FileTransferManager) (port : Nat) : FileTransferManager :=
  { m with usedPorts := m.usedPorts.filter (fun q => q != port) }

/-- The `ftm.sessions[sessionID]` map lookup. -/
def findSession (m : FileTransferManager) (sessionID : String) :
    Option FileSession :=
  m.sessions.find? (fun s => s.id == sessionID)

/-- In-place mutation of the session stored under `sessionID`. -/
def updateSession (m : FileTransferManager) (sessionID : String)
    (f : FileSession → FileSession) : FileTransferManager :=
  { m with sessions := m.sessions.map (fun s =>
      if s.id == sessionID then f s else s) }

/-- `CreateSession` (server/filetransfer.go lines 52-73): insert a fresh
pending session with no ports and a five-minute acceptance expiry.  The
random id is a parameter here; the map insert replaces any previous entry
under the same id. -/
def CreateSession (m : FileTransferManager)
    (sessionID sender recipient filename : String) (size : Int)
    (hash : String) (now : Db.Instant) : FileTransferManager :=
  { m with sessions :=
      { id := sessionID, sender := sender, recipient := recipient,
        filename := filename, size := size, hash := hash,
        uploadPort := 0, downloadPort := 0, status := "pending",
        createdAt := now, expiresAt := now + 300 } ::
        m.sessions.filter (fun s => s.id != sessionID) }

/-- The second allocation step of `AcceptSession` (server/filetransfer.go
lines 98-113): on failure the first port is released again, leaving the
caller's state unchanged; on success the session receives both ports,
status `accepted` and a ten-minute expiry. -/
def acceptAlloc2 (sessionID : String) (now : Db.Instant)
    (uploadPort : Nat) :
    Except FtErr (Nat × FileTransferManager) →
      Except FtErr (Nat × Nat × FileTransferManager)
  | .error e => .error e
  | .ok (downloadPort, m2) =>
    .ok (uploadPort, downloadPort,
      updateSession m2 sessionID (fun t =>
        { t with
            uploadPort := uploadPort
            downloadPort := downloadPort
            status := "accepted"
            expiresAt := now + 600 }))

/-- The first allocation step of `AcceptSession` (server/filetransfer.go
lines 92-101). -/
def acceptAlloc1 (sessionID : String) (now : Db.Instant) :
    Except FtErr (Nat × FileTransferManager) →
      Except FtErr (Nat × Nat × FileTransferManager)
  | .error e => .error e
  | .ok (uploadPort, m1) =>
    acceptAlloc2 sessionID now uploadPort (allocatePort m1)

/-- The body of `AcceptSession` after the map lookup (server/filetransfer.go
lines 81-90): only a pending session can be accepted. -/
def acceptFound (m : FileTransferManager) (sessionID : String)
    (now : Db.Instant) :
    Option FileSession → Except FtErr (Nat × Nat × FileTransferManager)
  | none => .error .sessionNotFound
  | some s =>
    if s.status != "pending" then .error .sessionNotPending
    else acceptAlloc1 sessionID now (allocatePort m)

/-- `AcceptSession` (server/filetransfer.go lines 76-114).  The spawned
proxy goroutine is concurrent socket I/O and is not modelled. -/
def AcceptSession (m : FileTransferManager) (sessionID : String)
    (now : Db.Instant) : Except FtErr (Nat × Nat × FileTransferManager) :=
  acceptFound m sessionID now (findSession m sessionID)

/-- `DeclineSession` (server/filetransfer.go lines 117-132): the status is
set to `declined` with no check of the current status; connections and
ports are untouched. -/
def DeclineSession (m : FileTransferManager) (sessionID : String) :
    Except FtErr FileTransferManager :=
  match findSession m sessionID with
  | none => .error .sessionNotFound
  | some _ =>
    .ok (updateSession m sessionID (fun t => { t with status := "declined" }))

/-- `CancelSession` (server/filetransfer.go lines 135-157): the status is
set to `cancelled` with no check of the current status; the data sockets
are closed (I/O, not modelled) and the ports are not released. -/
def CancelSession (m : FileTransferManager) (sessionID : String) :
    Except FtErr FileTransferManager :=
  match findSession m sessionID with
  | none => .error .sessionNotFound
  | some _ =>
    .ok (updateSession m sessionID (fun t => { t with status := "cancelled" }))

/-- The sweeper's removal condition (server/filetransfer.go line 175):
past the expiry and not completed. -/
def expiredNotCompleted (now : Db.Instant) (s : FileSession) : Bool :=
  decide (s.expiresAt < now) && s.status != "completed"

/-- Release of the ports a removed session holds (server/filetransfer.go
lines 184-189). -/
def releaseSessionPorts (m : FileTransferManager) (s : FileSession) :
    FileTransferManager :=
  let m1 := if 0 < s.uploadPort then releasePort m s.uploadPort else m
  if 0 < s.downloadPort then releasePort m1 s.downloadPort else m1

/-- `CleanExpired` (server/filetransfer.go lines 168-194): delete every
session past its expiry that is not completed, releasing its ports (the
transient cancelled status written just before the delete is unobservable
once the entry is gone). -/
def CleanExpired (m : FileTransferManager) (now : Db.Instant) :
    FileTransferManager :=
  (m.sessions.filter (expiredNotCompleted now)).foldl releaseSessionPorts
    { m with sessions :=
        m.sessions.filter (fun s => !expiredNotCompleted now s) }

/-- The completed session left behind by a finished transfer (the proxy
has already released the ports, but the entry stays in the map). -/
def c8DoneSession : FileSession :=
  { id := "s1", sender := "alice", recipient := "bob", filename := "f.bin",
    size := 4, hash := "h", uploadPort := 35000, downloadPort := 35001,
    status := "completed", createdAt := 0, expiresAt := 600 }

/-- A manager holding only `c8DoneSession`. -/
def c8Done : FileTransferManager :=
  { sessions := [c8DoneSession], portRangeStart := 35000,
    portRangeEnd := 35999, usedPorts := [] }

/-- `c8DoneSession` overwritten by `fcan`. -/
def c8CancelledSession : FileSession :=
  { c8DoneSession with status := "cancelled" }

/-- `c8Done` after `CancelSession`. -/
def c8CancelledM : FileTransferManager :=
  { c8Done with sessions := [c8CancelledSession] }

/-- `c8DoneSession` overwritten by `fdec`. -/
def c8DeclinedSession : FileSession :=
  { c8DoneSession with status := "declined" }

/-- `c8Done` after `DeclineSession`. -/
def c8DeclinedM : FileTransferManager :=
  { c8Done with sessions := [c8DeclinedSession] }

/-- C8 counterexample: on a session whose status is the terminal
`completed`, `fcan` (CancelSession) rewrites the status to `cancelled`
and `fdec` (DeclineSession) rewrites it to `declined`, so completed does
not admit "no further transitions" and declined is entered from a
non-pending state. -/
theorem c8_terminal_overwritten_counterexample :
    findSession c8Done "s1" = some c8DoneSession ∧
    c8DoneSession.status = "completed" ∧
    CancelSession c8Done "s1" = .ok c8CancelledM ∧
    c8CancelledM.sessions = [c8CancelledSession] ∧
    c8CancelledSession.status = "cancelled" ∧
    DeclineSession c8Done "s1" = .ok c8DeclinedM ∧
    c8DeclinedSession.status = "declined" := by
  decide

/-- The state reached by creating session s1 on a two-port manager. -/
def c7Created : FileTransferManager :=
  CreateSession (NewFileTransferManager 1 2) "s1" "alice" "bob" "f.bin" 4
    "h" 0

/-- The accepted session holding ports 1 and 2. -/
def c7AcceptedSession : FileSession :=
  { id := "s1", sender := "alice", recipient := "bob",
    filename := "f.bin", size := 4, hash := "h", uploadPort := 1,
    downloadPort := 2, status := "accepted", createdAt := 0,
    expiresAt := 600 }

/-- `c7Created` after acceptance: ports 1 and 2 allocated and held. -/
def c7AcceptedM : FileTransferManager :=
  { sessions := [c7AcceptedSession], portRangeStart := 1,
    portRangeEnd := 2, usedPorts := [2, 1] }

/-- The declined session still naming ports 1 and 2. -/
def c7DeclinedSession : FileSession :=
  { id := "s1", sender := "alice", recipient := "bob",
    filename := "f.bin", size := 4, hash := "h", uploadPort := 1,
    downloadPort := 2, status := "declined", createdAt := 0,
    expiresAt := 600 }

/-- `c7AcceptedM` after the decline. -/
def c7DeclinedM : FileTransferManager :=
  { c7AcceptedM with sessions := [c7DeclinedSession] }

/-- C7 counterexample: create, accept (ports 1 and 2 are allocated), then
decline.  The decline is a terminal transition, yet both ports remain in
the used set while the only session is declined: the ports are owned by
no session, refuting "owned by exactly one session" and "all ports held
by a session are released on any terminal transition". -/
theorem c7_decline_keeps_ports_counterexample :
    AcceptSession c7Created "s1" 0 = .ok (1, 2, c7AcceptedM) ∧
    DeclineSession c7AcceptedM "s1" = .ok c7DeclinedM ∧
    c7DeclinedM.usedPorts = [2, 1] ∧
    c7DeclinedM.sessions = [c7DeclinedSession] ∧
    c7DeclinedSession.status = "declined" := by
  decide

theorem allocatePort_ok (m : FileTransferManager) (p : Nat)
    (m2 : FileTransferManager) (h : allocatePort m = .ok (p, m2)) :
    m.portRangeStart ≤ p ∧ p ≤ m.portRangeEnd ∧ ¬p ∈ m.usedPorts ∧
    m2 = { m with usedPorts := p :: m.usedPorts } := by
  unfold allocatePort at h
  cases hf : (List.range' m.portRangeStart
      (m.portRangeEnd + 1 - m.portRangeStart)).find?
      (fun q => decide (¬q ∈ m.usedPorts)) with
  | none => rw [hf] at h; simp at h
  | some q =>
    rw [hf] at h
    simp only [Except.ok.injEq, Prod.mk.injEq] at h
    obtain ⟨rfl, rfl⟩ := h
    have hfree := List.find?_some hf
    have hmem := List.mem_of_find?_eq_some hf
    rw [List.mem_range'] at hmem
    obtain ⟨i, hi, rfl⟩ := hmem
    exact ⟨by omega, by omega, by simpa using hfree, rfl⟩

theorem allocatePort_exhausted_iff (m : FileTransferManager) :
    allocatePort m = .error FtErr.noAvailablePorts ↔
      ∀ p, m.portRangeStart ≤ p → p ≤ m.portRangeEnd → p ∈ m.usedPorts := by
  unfold allocatePort
  cases hf : (List.range' m.portRangeStart
      (m.portRangeEnd + 1 - m.portRangeStart)).find?
      (fun q => decide (¬q ∈ m.usedPorts)) with
  | none =>
    rw [List.find?_eq_none] at hf
    constructor
    · intro _ p h1 h2
      have hpmem : p ∈ List.range' m.portRangeStart
          (m.portRangeEnd + 1 - m.portRangeStart) := by
        rw [List.mem_range']
        refine ⟨p - m.portRangeStart, ?_, ?_⟩ <;> omega
      have hp := hf p hpmem
      simpa using hp
    · intro _
      rfl
  | some q =>
    constructor
    · intro habs
      exact absurd habs (by simp)
    · intro hall
      have hfree := List.find?_some hf
      have hmem := List.mem_of_find?_eq_some hf
      rw [List.mem_range'] at hmem
      obtain ⟨i, hi, rfl⟩ := hmem
      have hin := hall (m.portRangeStart + i) (by omega) (by omega)
      simp at hfree
      exact absurd hin hfree

/-- A session in a port-holding status (spec section 3: a session holds
its reserved ports while accepted or transferring). -/
def holdsPorts (s : FileSession) : Prop :=
  s.status = "accepted" ∨ s.status = "transferring"

/-- Session `s` owns port `p`. -/
def Owns (p : Nat) (s : FileSession) : Prop :=
  holdsPorts s ∧ (s.uploadPort = p ∨ s.downloadPort = p)

instance (s : FileSession) : Decidable (holdsPorts s) := by
  unfold holdsPorts
  infer_instance

instance (p : Nat) (s : FileSession) : Decidable (Owns p s) := by
  unfold Owns
  infer_instance

/-- Any positive port is owned by at most one session. -/
def AtMostOneOwner (m : FileTransferManager) : Prop :=
  ∀ p, 0 < p → ∀ s1 ∈ m.sessions, ∀ s2 ∈ m.sessions,
    Owns p s1 → Owns p s2 → s1 = s2

/-- The port-discipline invariant the broker maintains: a positive range
start (the configured ranges begin at 35000 and the server substitutes
the defaults for zero), distinct session ids (a Go map), and for every
session that has been assigned ports: both ports positive, distinct, in
range and still marked used; distinct sessions never share an assigned
port. -/
structure Inv (m : FileTransferManager) : Prop where
  startPos : 0 < m.portRangeStart
  nodupIds : (m.sessions.map FileSession.id).Nodup
  ports : ∀ s ∈ m.sessions, 0 < s.uploadPort ∨ 0 < s.downloadPort →
    0 < s.uploadPort ∧ 0 < s.downloadPort ∧
    ¬s.uploadPort = s.downloadPort ∧
    s.uploadPort ∈ m.usedPorts ∧ s.downloadPort ∈ m.usedPorts ∧
    m.portRangeStart ≤ s.uploadPort ∧ s.uploadPort ≤ m.portRangeEnd ∧
    m.portRangeStart ≤ s.downloadPort ∧ s.downloadPort ≤ m.portRangeEnd
  disj : ∀ s1 ∈ m.sessions, ∀ s2 ∈ m.sessions, ¬s1.id = s2.id →
    (0 < s1.uploadPort →
      ¬s1.uploadPort = s2.uploadPort ∧ ¬s1.uploadPort = s2.downloadPort) ∧
    (0 < s1.downloadPort →
      ¬s1.downloadPort = s2.uploadPort ∧ ¬s1.downloadPort = s2.downloadPort)

theorem Inv.atMostOneOwner {m : FileTransferManager} (h : Inv m) :
    AtMostOneOwner m := by
  intro p hp s1 hs1 s2 hs2 ho1 ho2
  by_cases hid : s1.id = s2.id
  · exact List.inj_on_of_nodup_map h.nodupIds hs1 hs2 hid
  · obtain ⟨hd1, hd2⟩ := h.disj s1 hs1 s2 hs2 hid
    exfalso
    rcases ho1.2 with h1 | h1
    · obtain ⟨hne1, hne2⟩ := hd1 (by omega)
      rcases ho2.2 with h2 | h2
      · exact hne1 (by omega)
      · exact hne2 (by omega)
    · obtain ⟨hne1, hne2⟩ := hd2 (by omega)
      rcases ho2.2 with h2 | h2
      · exact hne1 (by omega)
      · exact hne2 (by omega)

theorem updateSession_map_id (m : FileTransferManager) (sid : String)
    (f : FileSession → FileSession) (hf : ∀ t, (f t).id = t.id) :
    (updateSession m sid f).sessions.map FileSession.id =
      m.sessions.map FileSession.id := by
  simp only [updateSession, List.map_map]
  apply List.map_congr_left
  intro t _
  simp only [Function.comp_apply]
  split
  · exact hf t
  · rfl

theorem CreateSession_inv (m : FileTransferManager)
    (sessionID sender recipient filename : String) (size : Int)
    (hash : String) (now : Db.Instant) (h : Inv m) :
    Inv (CreateSession m sessionID sender recipient filename size hash
      now) := by
  constructor
  · exact h.startPos
  · simp only [CreateSession, List.map_cons]
    rw [List.nodup_cons]
    constructor
    · intro hmem
      obtain ⟨t, ht, hid⟩ := List.mem_map.1 hmem
      have hpf := List.of_mem_filter ht
      simp [hid] at hpf
    · exact List.Nodup.sublist ((List.filter_sublist _).map _) h.nodupIds
  · intro s hs hpos
    simp only [CreateSession, List.mem_cons] at hs
    rcases hs with rfl | hs
    · simp at hpos
    · exact h.ports s (List.mem_of_mem_filter hs) hpos
  · intro s1 hs1 s2 hs2 hne
    simp only [CreateSession, List.mem_cons] at hs1 hs2
    rcases hs1 with rfl | hs1
    · constructor <;> · intro hpos; simp at hpos
    · rcases hs2 with rfl | hs2
      · constructor
        · intro hpos
          exact ⟨by show ¬_ = (0 : Nat); omega, by show ¬_ = (0 : Nat); omega⟩
        · intro hpos
          exact ⟨by show ¬_ = (0 : Nat); omega, by show ¬_ = (0 : Nat); omega⟩
      · exact h.disj s1 (List.mem_of_mem_filter hs1) s2
          (List.mem_of_mem_filter hs2) hne

theorem AcceptSession_ok (m : FileTransferManager) (sid : String)
    (now : Db.Instant) (up down : Nat) (m2 : FileTransferManager)
    (h : AcceptSession m sid now = .ok (up, down, m2)) :
    (∃ s, findSession m sid = some s ∧ s.status = "pending") ∧
    m.portRangeStart ≤ up ∧ up ≤ m.portRangeEnd ∧ ¬up ∈ m.usedPorts ∧
    m.portRangeStart ≤ down ∧ down ≤ m.portRangeEnd ∧
    ¬down ∈ m.usedPorts ∧ ¬down = up ∧
    m2 = updateSession { m with usedPorts := down :: up :: m.usedPorts }
      sid (fun t => { t with uploadPort := up, downloadPort := down, status := "accepted", expiresAt := now + 600 }) := by
  unfold AcceptSession at h
  cases hfind : findSession m sid with
  | none => rw [hfind] at h; simp [acceptFound] at h
  | some s =>
    rw [hfind] at h
    simp only [acceptFound] at h
    by_cases hp : s.status = "pending"
    · rw [if_neg (by simp [hp])] at h
      cases halloc1 : allocatePort m with
      | error e => rw [halloc1] at h; simp [acceptAlloc1] at h
      | ok pr =>
        obtain ⟨p1, m1⟩ := pr
        rw [halloc1] at h
        simp only [acceptAlloc1] at h
        obtain ⟨hs1, he1, hnu1, rfl⟩ := allocatePort_ok m p1 m1 halloc1
        cases halloc2 : allocatePort { m with usedPorts := p1 :: m.usedPorts } with
        | error e => rw [halloc2] at h; simp [acceptAlloc2] at h
        | ok pr2 =>
          obtain ⟨p2, m2x⟩ := pr2
          rw [halloc2] at h
          simp only [acceptAlloc2, Except.ok.injEq, Prod.mk.injEq] at h
          obtain ⟨rfl, rfl, rfl⟩ := h
          obtain ⟨hs2, he2, hnu2, rfl⟩ :=
            allocatePort_ok _ _ _ halloc2
          simp only [List.mem_cons, not_or] at hnu2
          exact ⟨⟨s, rfl, hp⟩, hs1, he1, hnu1, hs2, he2, hnu2.2,
            hnu2.1, rfl⟩
    · rw [if_pos (by simp [hp])] at h
      simp at h

theorem AcceptSession_inv (m : FileTransferManager) (sid : String)
    (now : Db.Instant) (up down : Nat) (m2 : FileTransferManager)
    (h : AcceptSession m sid now = .ok (up, down, m2)) (hinv : Inv m) :
    Inv m2 := by
  obtain ⟨⟨s, hfind, hp⟩, hs1, he1, hnu1, hs2, he2, hnu2, hnd, rfl⟩ :=
    AcceptSession_ok m sid now up down m2 h
  have hstart := hinv.startPos
  constructor
  · exact hstart
  · rw [updateSession_map_id _ sid (fun t => { t with uploadPort := up, downloadPort := down, status := "accepted", expiresAt := now + 600 }) (fun t => rfl)]
    exact hinv.nodupIds
  · intro s2 hs2m hpos
    obtain ⟨t, htm, rfl⟩ := List.mem_map.1 hs2m
    dsimp only at hpos ⊢
    by_cases ht : (t.id == sid) = true
    · rw [if_pos ht] at hpos ⊢
      dsimp only at hpos ⊢
      refine ⟨by omega, by omega, fun hh => hnd hh.symm, ?_, ?_, hs1, he1,
        hs2, he2⟩
      · exact List.mem_cons_of_mem _ (List.mem_cons_self _ _)
      · exact List.mem_cons_self _ _
    · rw [if_neg ht] at hpos ⊢
      have hport := hinv.ports t htm hpos
      refine ⟨hport.1, hport.2.1, hport.2.2.1, ?_, ?_,
        hport.2.2.2.2.2.1, hport.2.2.2.2.2.2.1,
        hport.2.2.2.2.2.2.2.1, hport.2.2.2.2.2.2.2.2⟩
      · exact List.mem_cons_of_mem _
          (List.mem_cons_of_mem _ hport.2.2.2.1)
      · exact List.mem_cons_of_mem _
          (List.mem_cons_of_mem _ hport.2.2.2.2.1)
  · intro s1 hs1m s2 hs2m hne
    obtain ⟨t1, ht1m, rfl⟩ := List.mem_map.1 hs1m
    obtain ⟨t2, ht2m, rfl⟩ := List.mem_map.1 hs2m
    dsimp only at hne ⊢
    by_cases h1 : (t1.id == sid) = true <;>
      by_cases h2 : (t2.id == sid) = true
    · exfalso
      apply hne
      rw [if_pos h1, if_pos h2]
      show t1.id = t2.id
      exact (eq_of_beq h1).trans (eq_of_beq h2).symm
    · rw [if_pos h1] at hne ⊢
      rw [if_neg h2] at hne ⊢
      dsimp only at hne ⊢
      constructor
      · intro _
        constructor
        · intro heq
          by_cases hq : 0 < t2.uploadPort
          · have hm := (hinv.ports t2 ht2m (Or.inl hq)).2.2.2.1
            exact hnu1 (by rw [heq]; exact hm)
          · omega
        · intro heq
          by_cases hq : 0 < t2.downloadPort
          · have hm := (hinv.ports t2 ht2m (Or.inr hq)).2.2.2.2.1
            exact hnu1 (by rw [heq]; exact hm)
          · omega
      · intro _
        constructor
        · intro heq
          by_cases hq : 0 < t2.uploadPort
          · have hm := (hinv.ports t2 ht2m (Or.inl hq)).2.2.2.1
            exact hnu2 (by rw [heq]; exact hm)
          · omega
        · intro heq
          by_cases hq : 0 < t2.downloadPort
          · have hm := (hinv.ports t2 ht2m (Or.inr hq)).2.2.2.2.1
            exact hnu2 (by rw [heq]; exact hm)
          · omega
    · rw [if_neg h1] at hne ⊢
      rw [if_pos h2] at hne ⊢
      dsimp only at hne ⊢
      constructor
      · intro hq1
        have hm := (hinv.ports t1 ht1m (Or.inl hq1)).2.2.2.1
        constructor
        · intro heq
          exact hnu1 (by rw [← heq]; exact hm)
        · intro heq
          exact hnu2 (by rw [← heq]; exact hm)
      · intro hq1
        have hm := (hinv.ports t1 ht1m (Or.inr hq1)).2.2.2.2.1
        constructor
        · intro heq
          exact hnu1 (by rw [← heq]; exact hm)
        · intro heq
          exact hnu2 (by rw [← heq]; exact hm)
    · rw [if_neg h1] at hne ⊢
      rw [if_neg h2] at hne ⊢
      exact hinv.disj t1 ht1m t2 ht2m hne

theorem DeclineSession_ok (m : FileTransferManager) (sid : String)
    (m2 : FileTransferManager) (h : DeclineSession m sid = .ok m2) :
    m2 = updateSession m sid (fun t => { t with status := "declined" }) := by
  unfold DeclineSession at h
  cases hfind : findSession m sid with
  | none => rw [hfind] at h; simp at h
  | some s =>
    rw [hfind] at h
    simp only [Except.ok.injEq] at h
    exact h.symm

theorem CancelSession_ok (m : FileTransferManager) (sid : String)
    (m2 : FileTransferManager) (h : CancelSession m sid = .ok m2) :
    m2 = updateSession m sid (fun t => { t with status := "cancelled" }) := by
  unfold CancelSession at h
  cases hfind : findSession m sid with
  | none => rw [hfind] at h; simp at h
  | some s =>
    rw [hfind] at h
    simp only [Except.ok.injEq] at h
    exact h.symm

theorem statusUpdate_inv (m : FileTransferManager) (sid newStatus : String)
    (hinv : Inv m) :
    Inv (updateSession m sid (fun t => { t with status := newStatus })) := by
  constructor
  · exact hinv.startPos
  · rw [updateSession_map_id _ sid (fun t => { t with status := newStatus }) (fun t => rfl)]
    exact hinv.nodupIds
  · intro s2 hs2m hpos
    obtain ⟨t, htm, rfl⟩ := List.mem_map.1 hs2m
    dsimp only at hpos ⊢
    have hup : (if (t.id == sid) = true then ({ t with status := newStatus } : FileSession) else t).uploadPort = t.uploadPort := by
      split <;> rfl
    have hdn : (if (t.id == sid) = true then ({ t with status := newStatus } : FileSession) else t).downloadPort = t.downloadPort := by
      split <;> rfl
    rw [hup, hdn] at hpos ⊢
    exact hinv.ports t htm hpos
  · intro s1 hs1m s2 hs2m hne
    obtain ⟨t1, ht1m, rfl⟩ := List.mem_map.1 hs1m
    obtain ⟨t2, ht2m, rfl⟩ := List.mem_map.1 hs2m
    dsimp only at hne ⊢
    have hid1 : (if (t1.id == sid) = true then ({ t1 with status := newStatus } : FileSession) else t1).id = t1.id := by
      split <;> rfl
    have hid2 : (if (t2.id == sid) = true then ({ t2 with status := newStatus } : FileSession) else t2).id = t2.id := by
      split <;> rfl
    have hup1 : (if (t1.id == sid) = true then ({ t1 with status := newStatus } : FileSession) else t1).uploadPort = t1.uploadPort := by
      split <;> rfl
    have hdn1 : (if (t1.id == sid) = true then ({ t1 with status := newStatus } : FileSession) else t1).downloadPort = t1.downloadPort := by
      split <;> rfl
    have hup2 : (if (t2.id == sid) = true then ({ t2 with status := newStatus } : FileSession) else t2).uploadPort = t2.uploadPort := by
      split <;> rfl
    have hdn2 : (if (t2.id == sid) = true then ({ t2 with status := newStatus } : FileSession) else t2).downloadPort = t2.downloadPort := by
      split <;> rfl
    rw [hid1, hid2] at hne
    rw [hup1, hdn1, hup2, hdn2]
    exact hinv.disj t1 ht1m t2 ht2m hne

theorem releasePort_sessions (m : FileTransferManager) (p : Nat) :
    (releasePort m p).sessions = m.sessions := rfl

theorem releaseSessionPorts_sessions (m : FileTransferManager)
    (s : FileSession) : (releaseSessionPorts m s).sessions = m.sessions := by
  unfold releaseSessionPorts
  split <;> · try split
              all_goals rfl

theorem releaseSessionPorts_start (m : FileTransferManager)
    (s : FileSession) :
    (releaseSessionPorts m s).portRangeStart = m.portRangeStart := by
  unfold releaseSessionPorts
  split <;> · try split
              all_goals rfl

theorem releaseSessionPorts_end (m : FileTransferManager)
    (s : FileSession) :
    (releaseSessionPorts m s).portRangeEnd = m.portRangeEnd := by
  unfold releaseSessionPorts
  split <;> · try split
              all_goals rfl

theorem foldl_release_sessions (l : List FileSession)
    (m : FileTransferManager) :
    (l.foldl releaseSessionPorts m).sessions = m.sessions := by
  induction l generalizing m with
  | nil => rfl
  | cons s rest ih =>
    rw [List.foldl_cons, ih, releaseSessionPorts_sessions]

theorem foldl_release_start (l : List FileSession)
    (m : FileTransferManager) :
    (l.foldl releaseSessionPorts m).portRangeStart = m.portRangeStart := by
  induction l generalizing m with
  | nil => rfl
  | cons s rest ih =>
    rw [List.foldl_cons, ih, releaseSessionPorts_start]

theorem foldl_release_end (l : List FileSession)
    (m : FileTransferManager) :
    (l.foldl releaseSessionPorts m).portRangeEnd = m.portRangeEnd := by
  induction l generalizing m with
  | nil => rfl
  | cons s rest ih =>
    rw [List.foldl_cons, ih, releaseSessionPorts_end]

theorem releasePort_mem (m : FileTransferManager) (p q : Nat)
    (h : q ∈ m.usedPorts) (hne : ¬q = p) :
    q ∈ (releasePort m p).usedPorts := by
  unfold releasePort
  simp only [List.mem_filter]
  exact ⟨h, by simp [hne]⟩

theorem releaseSessionPorts_mem (m : FileTransferManager) (s : FileSession)
    (q : Nat) (h : q ∈ m.usedPorts) (h1 : ¬q = s.uploadPort)
    (h2 : ¬q = s.downloadPort) :
    q ∈ (releaseSessionPorts m s).usedPorts := by
  simp only [releaseSessionPorts]
  split
  · refine releasePort_mem _ _ _ ?_ h2
    split
    · exact releasePort_mem _ _ _ h h1
    · exact h
  · split
    · exact releasePort_mem _ _ _ h h1
    · exact h

theorem foldl_release_mem (l : List FileSession) (m : FileTransferManager)
    (q : Nat) (h : q ∈ m.usedPorts)
    (hall : ∀ t ∈ l, ¬q = t.uploadPort ∧ ¬q = t.downloadPort) :
    q ∈ (l.foldl releaseSessionPorts m).usedPorts := by
  induction l generalizing m with
  | nil => exact h
  | cons s rest ih =>
    rw [List.foldl_cons]
    exact ih _ (releaseSessionPorts_mem _ _ _ h (hall s (by simp)).1
      (hall s (by simp)).2) (fun t htm => hall t (by simp [htm]))

theorem CleanExpired_inv (m : FileTransferManager) (now : Db.Instant)
    (hinv : Inv m) : Inv (CleanExpired m now) := by
  have hsess : (CleanExpired m now).sessions =
      m.sessions.filter (fun s => !expiredNotCompleted now s) := by
    unfold CleanExpired
    rw [foldl_release_sessions]
  have hstart2 : (CleanExpired m now).portRangeStart = m.portRangeStart := by
    unfold CleanExpired
    rw [foldl_release_start]
  have hend2 : (CleanExpired m now).portRangeEnd = m.portRangeEnd := by
    unfold CleanExpired
    rw [foldl_release_end]
  constructor
  · rw [hstart2]
    exact hinv.startPos
  · rw [hsess]
    exact List.Nodup.sublist ((List.filter_sublist _).map _) hinv.nodupIds
  · intro s hs hpos
    rw [hsess] at hs
    have hsm := List.mem_of_mem_filter hs
    have hport := hinv.ports s hsm hpos
    have howner : ∀ t ∈ m.sessions.filter (expiredNotCompleted now),
        (¬s.uploadPort = t.uploadPort ∧ ¬s.uploadPort = t.downloadPort) ∧
        (¬s.downloadPort = t.uploadPort ∧
          ¬s.downloadPort = t.downloadPort) := by
      intro t htr
      have htm := List.mem_of_mem_filter htr
      have hids : ¬s.id = t.id := by
        intro hid
        have hst : s = t :=
          List.inj_on_of_nodup_map hinv.nodupIds hsm htm hid
        subst hst
        have hkeep := List.of_mem_filter hs
        have hrem := List.of_mem_filter htr
        simp [hrem] at hkeep
      have hd := hinv.disj s hsm t htm hids
      exact ⟨hd.1 hport.1, hd.2 hport.2.1⟩
    have hupmem : s.uploadPort ∈ (CleanExpired m now).usedPorts := by
      unfold CleanExpired
      exact foldl_release_mem _ _ _ hport.2.2.2.1
        (fun t ht => (howner t ht).1)
    have hdnmem : s.downloadPort ∈ (CleanExpired m now).usedPorts := by
      unfold CleanExpired
      exact foldl_release_mem _ _ _ hport.2.2.2.2.1
        (fun t ht => (howner t ht).2)
    rw [hstart2, hend2]
    exact ⟨hport.1, hport.2.1, hport.2.2.1, hupmem, hdnmem,
      hport.2.2.2.2.2.1, hport.2.2.2.2.2.2.1,
      hport.2.2.2.2.2.2.2.1, hport.2.2.2.2.2.2.2.2⟩
  · intro s1 hs1m s2 hs2m hne
    rw [hsess] at hs1m hs2m
    exact hinv.disj s1 (List.mem_of_mem_filter hs1m) s2
      (List.mem_of_mem_filter hs2m) hne

/-- One broker operation: the manager mutations reachable from the
control-channel handlers (`fsnd`, `facc`, `fdec`, `fcan`) and the
sweeper. -/
inductive Step : FileTransferManager → FileTransferManager → Prop
  | create (m : FileTransferManager)
      (sessionID sender recipient filename : String) (size : Int)
      (hash : String) (now : Db.Instant) :
      Step m (CreateSession m sessionID sender recipient filename size
        hash now)
  | accept (m : FileTransferManager) (sessionID : String)
      (now : Db.Instant) (up down : Nat) (m2 : FileTransferManager)
      (h : AcceptSession m sessionID now = .ok (up, down, m2)) : Step m m2
  | decline (m : FileTransferManager) (sessionID : String)
      (m2 : FileTransferManager)
      (h : DeclineSession m sessionID = .ok m2) : Step m m2
  | cancel (m : FileTransferManager) (sessionID : String)
      (m2 : FileTransferManager)
      (h : CancelSession m sessionID = .ok m2) : Step m m2
  | clean (m : FileTransferManager) (now : Db.Instant) :
      Step m (CleanExpired m now)

/-- Broker states reachable by any sequence of operations. -/
def Reachable : FileTransferManager → FileTransferManager → Prop :=
  Relation.ReflTransGen Step

theorem Step.inv {ma mb : FileTransferManager} (hs : Step ma mb)
    (h : Inv ma) : Inv mb := by
  cases hs with
  | create sessionID sender recipient filename size hash now =>
    exact CreateSession_inv ma sessionID sender recipient filename size
      hash now h
  | accept sessionID now up down =>
    rename_i hok
    exact AcceptSession_inv ma sessionID now up down mb hok h
  | decline sessionID =>
    rename_i hok
    rw [DeclineSession_ok ma sessionID mb hok]
    exact statusUpdate_inv ma sessionID "declined" h
  | cancel sessionID =>
    rename_i hok
    rw [CancelSession_ok ma sessionID mb hok]
    exact statusUpdate_inv ma sessionID "cancelled" h
  | clean now => exact CleanExpired_inv ma now h

theorem Reachable_inv (m0 mr : FileTransferManager) (h0 : Inv m0)
    (h : Reachable m0 mr) : Inv mr := by
  induction h with
  | refl => exact h0
  | tail _ hstep ih => exact hstep.inv ih

/-- C7 (amended).  Port discipline of the broker: every allocated port
lies in `[range_start, range_end]`, was free at allocation and is marked
used; the ascending linear scan fails with no-available-ports exactly
when every port of the range is in use; and the port-assignment
invariant is preserved by every reachable sequence of broker operations,
under which every positive port is owned by AT MOST one session.
(The original "exactly one owner" and "all ports held by a session are
released on any terminal transition" fail: DeclineSession and
CancelSession release nothing, so a declined session leaves its ports
allocated but ownerless until the sweeper or the proxy frees them — see
the counterexample.) -/
theorem c7_port_discipline :
    (∀ m p m2, allocatePort m = .ok (p, m2) →
      m.portRangeStart ≤ p ∧ p ≤ m.portRangeEnd ∧ ¬p ∈ m.usedPorts ∧
      m2 = { m with usedPorts := p :: m.usedPorts }) ∧
    (∀ m : FileTransferManager,
      allocatePort m = .error FtErr.noAvailablePorts ↔
        ∀ p, m.portRangeStart ≤ p → p ≤ m.portRangeEnd →
          p ∈ m.usedPorts) ∧
    (∀ m0 mr, Inv m0 → Reachable m0 mr → Inv mr) ∧
    (∀ m, Inv m → AtMostOneOwner m) :=
  ⟨allocatePort_ok, allocatePort_exhausted_iff,
    fun m0 mr h0 h => Reachable_inv m0 mr h0 h,
    fun _ h => h.atMostOneOwner⟩

/-- The manager after allocating one port on a fresh two-port range. -/
def c7AllocM : FileTransferManager :=
  { sessions := [], portRangeStart := 1, portRangeEnd := 2,
    usedPorts := [1] }

/-- A manager whose whole range is in use. -/
def c7ExhaustedM : FileTransferManager :=
  { sessions := [], portRangeStart := 1, portRangeEnd := 2,
    usedPorts := [1, 2] }

/-- C7 witness: the amended theorem applied to concrete managers — a
successful allocation on a fresh range, exhaustion on a fully used range,
and the at-most-one-owner property of the accepted state reached by
create-then-accept. -/
theorem c7_port_discipline_witness :
    ((NewFileTransferManager 1 2).portRangeStart ≤ 1 ∧
      1 ≤ (NewFileTransferManager 1 2).portRangeEnd ∧
      ¬1 ∈ (NewFileTransferManager 1 2).usedPorts ∧
      c7AllocM = { NewFileTransferManager 1 2 with usedPorts := 1 :: (NewFileTransferManager 1 2).usedPorts }) ∧
    2 ∈ c7ExhaustedM.usedPorts ∧
    c7AcceptedSession = c7AcceptedSession :=
  have hthm := c7_port_discipline
  have hinv : Inv c7AcceptedM :=
    hthm.2.2.1 c7Created c7AcceptedM
      ⟨by decide, by decide, by decide, by decide⟩
      (Relation.ReflTransGen.single
        (Step.accept c7Created "s1" 0 1 2 c7AcceptedM (by decide)))
  ⟨hthm.1 (NewFileTransferManager 1 2) 1 c7AllocM (by decide),
   (hthm.2.1 c7ExhaustedM).1 (by decide) 2 (by decide) (by decide),
   hthm.2.2.2 c7AcceptedM hinv 1 (by decide) c7AcceptedSession (by decide)
     c7AcceptedSession (by decide) (by decide) (by decide)⟩

/-- C8 (amended).  The broker's actual status discipline: `accepted` is
entered only from `pending` (AcceptSession checks and otherwise errors);
DeclineSession and CancelSession set `declined` / `cancelled`
unconditionally, from any current status including the terminal ones (so
`fdec` or `fcan` on a completed session overwrites its status — see the
counterexample); and the sweeper never alters or removes a completed
session. -/
theorem c8_state_machine (m : FileTransferManager) (sessionID : String)
    (now : Db.Instant) :
    (∀ up down m2, AcceptSession m sessionID now = .ok (up, down, m2) →
      ∃ s, findSession m sessionID = some s ∧ s.status = "pending") ∧
    (∀ m2, DeclineSession m sessionID = .ok m2 →
      ∀ s2 ∈ m2.sessions, s2.id = sessionID → s2.status = "declined") ∧
    (∀ m2, CancelSession m sessionID = .ok m2 →
      ∀ s2 ∈ m2.sessions, s2.id = sessionID → s2.status = "cancelled") ∧
    (∀ s ∈ m.sessions, s.status = "completed" →
      s ∈ (CleanExpired m now).sessions) := by
  refine ⟨?_, ?_, ?_, ?_⟩
  · intro up down m2 h
    exact (AcceptSession_ok m sessionID now up down m2 h).1
  · intro m2 h
    rw [DeclineSession_ok m sessionID m2 h]
    intro s2 hs2 hid
    obtain ⟨t, htm, rfl⟩ := List.mem_map.1 hs2
    dsimp only at hid ⊢
    by_cases ht : (t.id == sessionID) = true
    · rw [if_pos ht]
    · rw [if_neg ht] at hid
      exact absurd (by simp [hid]) ht
  · intro m2 h
    rw [CancelSession_ok m sessionID m2 h]
    intro s2 hs2 hid
    obtain ⟨t, htm, rfl⟩ := List.mem_map.1 hs2
    dsimp only at hid ⊢
    by_cases ht : (t.id == sessionID) = true
    · rw [if_pos ht]
    · rw [if_neg ht] at hid
      exact absurd (by simp [hid]) ht
  · intro s hs hcomp
    have hsess : (CleanExpired m now).sessions =
        m.sessions.filter (fun t => !expiredNotCompleted now t) := by
      unfold CleanExpired
      rw [foldl_release_sessions]
    rw [hsess]
    refine List.mem_filter.2 ⟨hs, ?_⟩
    simp [expiredNotCompleted, hcomp]

/-- C8 witness: the amended theorem applied to the completed-session
manager — the decline and cancel overwrites and the sweeper's preservation
of the completed entry. -/
theorem c8_state_machine_witness :
    c8DeclinedSession.status = "declined" ∧
    c8CancelledSession.status = "cancelled" ∧
    c8DoneSession ∈ (CleanExpired c8Done 700).sessions :=
  have h := c8_state_machine c8Done "s1" 700
  ⟨h.2.1 c8DeclinedM (by decide) c8DeclinedSession (by decide) (by decide),
   h.2.2.1 c8CancelledM (by decide) c8CancelledSession (by decide)
     (by decide),
   h.2.2.2 c8DoneSession (by decide) (by decide)⟩

end FileTransfer

namespace Server

/-- The externally visible effects of the connection handler's teardown
path (server/server.go). -/
inductive NetEvent
  | closeConn
  | removeSession (login : String)
  | updateLastOffline (login : String)
  | notifyOffline (login : String)
  | writePacket (fields : List String)
deriving DecidableEq, Repr

/-- `sendBye` (server/server.go lines 294-306), as the field vector it
writes: reason and details are appended only when non-empty. -/
def sendByeFields (reason details : String) : List String :=
  if ¬details = "" then ["bye", reason, details]
  else if ¬reason = "" then ["bye", reason]
  else ["bye"]

/-- The ordered effects of `handleConnection` when the liveness ticker
fires for an authenticated session idle past read_timeout
(server/server.go lines 79-127 and 180-193): the ticker goroutine sets
the bye flag and reason and closes the socket (lines 115-121); the
blocked read then fails with a closed-connection error and the loop
breaks (lines 143-150); the post-loop cleanup removes the session,
persists last_offline and fans out the offline presence (lines 181-189);
last of all the deferred function (lines 84-89) runs `sendBye` with
reason timeout and no details on the already-closed socket, and closes
again. -/
def timeoutTeardown (login : String) : List NetEvent :=
  [NetEvent.closeConn,
   NetEvent.removeSession login,
   NetEvent.updateLastOffline login,
   NetEvent.notifyOffline login,
   NetEvent.writePacket (sendByeFields "timeout" ""),
   NetEvent.closeConn]

/-- A packet reaches the client only when its write precedes every close
of the connection: a `conn.Write` after `conn.Close` always fails. -/
def deliveredToClient (evs : List NetEvent) (fields : List String) : Prop :=
  ∃ i : Fin evs.length, evs.get i = NetEvent.writePacket fields ∧
    ∀ j : Fin evs.length, j.val < i.val → ¬evs.get j = NetEvent.closeConn

instance (evs : List NetEvent) (fields : List String) :
    Decidable (deliveredToClient evs fields) := by
  unfold deliveredToClient
  infer_instance

/-- C3.  Evaluation at the failing input — an authenticated session of
alice with no data for read_timeout at a liveness tick.  The teardown
does format `bye|timeout` with no completion time and does close the
connection, but the socket is closed before the deferred write runs, so
the packet is never delivered to the client, contradicting the claim that
the client is sent `bye|timeout`. -/
theorem c3_timeout_bye_written_after_close :
    sendByeFields "timeout" "" = ["bye", "timeout"] ∧
    NetEvent.writePacket ["bye", "timeout"] ∈ timeoutTeardown "alice" ∧
    NetEvent.closeConn ∈ timeoutTeardown "alice" ∧
    ¬deliveredToClient (timeoutTeardown "alice") ["bye", "timeout"] := by
  decide

end Server

end MSim
